import Mathlib

/-!
Shallow embedding of the real-time audio synthesis engine of the
rescape-client-mcu firmware (src/src/synth.cpp, src/src/music.cpp and
their headers), together with proofs settling the claims of the
natural-language specification against the code.

Machine integers are modelled as `Nat` (unsigned) and `Int` (signed) with
explicit reductions modulo 2^32 exactly where the C arithmetic can wrap.
`u8`/`u16` value ranges appear as hypotheses on theorems where they matter.
C signed division (truncation toward zero) is `Int.tdiv`; the arithmetic
right shift gcc emits for negative `int32_t` values is `Int.fdiv _ (2^k)`.
-/

/-- 2^32, the modulus of `u32` arithmetic. -/
def U32 : Nat := 4294967296

/-- 2^31, the first value that does not fit a 32-bit signed int. -/
def I32_HALF : Nat := 2147483648

/-- The envelope's full level, `255 << 16` (synth.cpp line 323). -/
def MAX_LEVEL : Nat := 255 <<< 16

/-- MAX_DELAY_BUFFER_SIZE from synth.h line 97. -/
def MAX_DELAY_BUFFER_SIZE : Nat := 6000

/-- NUM_CHANNELS from synth.h line 94. -/
def NUM_CHANNELS : Nat := 4

/-- Reinterpret a (mathematically exact) unsigned product as the value a
32-bit signed `int` holds after wraparound, as on the 32-bit target. -/
def toI32 (n : Nat) : Int :=
  let m := n % U32
  if m < I32_HALF then (m : Int) else (m : Int) - (U32 : Int)

/-- Conversion of a signed 32-bit value to `u32` (C modular conversion). -/
def i32ToU32 (x : Int) : Nat := (x % (U32 : Int)).toNat

/-- Waveform enum (synth.h lines 15-22). -/
inductive Waveform
  | sine
  | square
  | triangle
  | sawtooth
  | noise
  deriving DecidableEq, Repr

/-- Voice ADSR state enum (synth.h lines 65-72). -/
inductive EnvState
  | idle
  | attack
  | decay
  | sustain
  | release
  deriving DecidableEq, BEq, Repr

/-- SoundPreset enum (synth.h lines 25-35). -/
inductive SoundPreset
  | soundPluck
  | soundFlute
  | soundOrgan
  | soundPiano
  | soundPercussion
  | soundBeep
  | soundSynthLead
  | soundDefault
  deriving DecidableEq, Repr

/-- ADSR envelope template (synth.h lines 38-44). -/
structure ADSR where
  attackMs : Nat
  decayMs : Nat
  sustainLevel : Nat
  releaseMs : Nat
  deriving DecidableEq, Repr

/-- Echo effect parameters (synth.h lines 47-53). -/
structure EchoParams where
  globalEnabled : Bool
  delayMs : Nat
  feedback : Nat
  mix : Nat
  deriving DecidableEq, Repr

/-- Voice structure for polyphony (synth.h lines 56-86). -/
structure Voice where
  active : Bool
  enableEcho : Bool
  frequency : Nat
  phaseAccumulator : Nat
  phaseIncrement : Nat
  envState : EnvState
  envLevel : Nat
  attackRate : Nat
  decayRate : Nat
  releaseRate : Nat
  sustainLevelFixed : Nat
  samplesUntilRelease : Nat
  baseVolume : Nat
  waveform : Waveform
  deriving DecidableEq, Repr

/-- The Synth members that `playNote` reads (synth.h lines 104-113). -/
structure SynthConfig where
  sampleRate : Nat
  waveform : Waveform
  envelope : ADSR
  presetEchoEnabled : Bool
  deriving DecidableEq, Repr

/-- The 256-entry precomputed sine table (synth.cpp lines 205-221). -/
def SINE_TABLE : List Nat :=
  [128, 131, 134, 137, 140, 143, 146, 149, 152, 155, 158, 162, 165, 167, 170, 173,
   176, 179, 182, 185, 188, 190, 193, 196, 198, 201, 203, 206, 208, 211, 213, 215,
   218, 220, 222, 224, 226, 228, 230, 232, 234, 235, 237, 238, 240, 241, 243, 244,
   245, 246, 248, 249, 250, 250, 251, 252, 253, 253, 254, 254, 254, 255, 255, 255,
   255, 255, 255, 255, 254, 254, 254, 253, 253, 252, 251, 250, 250, 249, 248, 246,
   245, 244, 243, 241, 240, 238, 237, 235, 234, 232, 230, 228, 226, 224, 222, 220,
   218, 215, 213, 211, 208, 206, 203, 201, 198, 196, 193, 190, 188, 185, 182, 179,
   176, 173, 170, 167, 165, 162, 158, 155, 152, 149, 146, 143, 140, 137, 134, 131,
   128, 124, 121, 118, 115, 112, 109, 106, 103, 100, 97, 93, 90, 88, 85, 82,
   79, 76, 73, 70, 67, 65, 62, 59, 57, 54, 52, 49, 47, 44, 42, 40,
   37, 35, 33, 31, 29, 27, 25, 23, 21, 20, 18, 17, 15, 14, 12, 11,
   10, 9, 7, 6, 5, 5, 4, 3, 2, 2, 1, 1, 1, 0, 0, 0,
   0, 0, 0, 0, 1, 1, 1, 2, 2, 3, 4, 5, 5, 6, 7, 9,
   10, 11, 12, 14, 15, 17, 18, 20, 21, 23, 25, 27, 29, 31, 33, 35,
   37, 40, 42, 44, 47, 49, 52, 54, 57, 59, 62, 65, 67, 70, 73, 76,
   79, 82, 85, 88, 90, 93, 97, 100, 103, 106, 109, 112, 115, 118, 121, 124]

/-- `Synth::generateSample` (synth.cpp lines 227-264).  `rnd` supplies the
pseudo-random byte that `random(0, 256)` produces for the noise waveform;
all other waveforms ignore it. -/
def generateSample (phase : Nat) (wave : Waveform) (rnd : Nat) : Nat :=
  match wave with
  | .sine => SINE_TABLE.getD phase 0
  | .square => if phase < 128 then 255 else 0
  | .triangle => if phase < 128 then phase * 2 else (255 - phase) * 2
  | .sawtooth => phase
  | .noise => rnd % 256

/-- The ADSR envelope switch of `Synth::updateSample` (synth.cpp lines
411-462), acting on one voice.  `u32` additions carry an explicit
`% U32`; the guarded `u32` subtractions are written in the wrap-safe form
`(a + U32 - b) % U32`, which agrees with C's `a - b` for all `a b < 2^32`. -/
def envStep (v : Voice) : Voice :=
  match v.envState with
  | .attack =>
      let lvl := (v.envLevel + v.attackRate) % U32
      if MAX_LEVEL ≤ lvl then
        { v with envLevel := MAX_LEVEL, envState := .decay }
      else
        { v with envLevel := lvl }
  | .decay =>
      let v1 :=
        if (v.sustainLevelFixed + v.decayRate) % U32 < v.envLevel then
          { v with envLevel := (v.envLevel + U32 - v.decayRate) % U32 }
        else
          { v with envLevel := v.sustainLevelFixed }
      if v1.envLevel ≤ v1.sustainLevelFixed then
        { v1 with envLevel := v1.sustainLevelFixed, envState := .sustain }
      else
        v1
  | .sustain =>
      if 0 < v.samplesUntilRelease then
        { v with samplesUntilRelease := v.samplesUntilRelease - 1 }
      else
        { v with envState := .release }
  | .release =>
      if v.releaseRate < v.envLevel then
        { v with envLevel := (v.envLevel + U32 - v.releaseRate) % U32 }
      else
        { v with envLevel := 0, active := false, envState := .idle }
  | .idle => { v with active := false }

/-- One voice's portion of the per-sample loop of `Synth::updateSample`
(synth.cpp lines 395-488): skip inactive voices; advance the phase
accumulator; look up the waveform sample; run the envelope; produce the
processed (post-envelope, post-volume) signed contribution
`(sampleSigned * envAmp * baseVolume) >> 16`.  Returns the stepped voice
and its contribution. -/
def voiceStepOut (v : Voice) (rnd : Nat) : Voice × Int :=
  if v.active = false then (v, 0)
  else
    let acc := (v.phaseAccumulator + v.phaseIncrement) % U32
    let phase := acc >>> 24
    let waveValue := generateSample phase v.waveform rnd
    let v1 := envStep { v with phaseAccumulator := acc }
    let sampleSigned : Int := (waveValue : Int) - 128
    let envAmp : Nat := v1.envLevel >>> 16
    let processed : Int :=
      Int.fdiv (sampleSigned * (envAmp : Int) * (v.baseVolume : Int)) 65536
    (v1, processed)

/-- The voice that advances only its envelope-relevant evolution: iterated
form of `voiceStepOut` ignoring the emitted sample. -/
def voiceStep (v : Voice) (rnd : Nat) : Voice := (voiceStepOut v rnd).1

/-- Iterate `voiceStep` with a fixed random byte. -/
def voiceStepN : Nat → Voice → Voice
  | 0, v => v
  | n + 1, v => voiceStepN n (voiceStep v 0)

/-- The `(ms * sampleRate) / 1000` computations of `Synth::playNote`
(synth.cpp lines 319, 326, 332, 342).  Both operands are `u16`, so C
promotes them to 32-bit signed `int`: the product wraps at 2^31 on the
32-bit target, the division truncates toward zero, and the quotient is
converted back to `u32`. -/
def msSamples (ms sr : Nat) : Nat :=
  i32ToU32 (Int.tdiv (toI32 (ms * sr)) 1000)

/-- `attackSamples` after the floor-to-1 guard (synth.cpp lines 326-328). -/
def guardedSamples (ms sr : Nat) : Nat :=
  let s := msSamples ms sr
  if s = 0 then 1 else s

/-- `phaseIncrement = (u32)(((uint64_t)freq << 32) / sampleRate)`
(synth.cpp line 314).  The `u64` shift is exact (`freq < 2^16`), the `u64`
division truncates, and the final cast to `u32` reduces mod 2^32. -/
def phaseIncrementOf (freq sr : Nat) : Nat :=
  ((freq <<< 32) / sr) % U32

/-- The voice produced by `Synth::playNote` (synth.cpp lines 305-346),
as a function of the Synth's current configuration and the call
arguments. -/
def playNoteVoice (cfg : SynthConfig) (freq durationMs volume : Nat) : Voice :=
  let maxLevel := MAX_LEVEL
  let attackSamples := guardedSamples cfg.envelope.attackMs cfg.sampleRate
  let decaySamples := guardedSamples cfg.envelope.decayMs cfg.sampleRate
  let releaseSamples := guardedSamples cfg.envelope.releaseMs cfg.sampleRate
  let sf := cfg.envelope.sustainLevel <<< 16
  { active := true
    enableEcho := cfg.presetEchoEnabled
    frequency := freq
    baseVolume := volume
    waveform := cfg.waveform
    phaseAccumulator := 0
    phaseIncrement := phaseIncrementOf freq cfg.sampleRate
    envState := .attack
    envLevel := 0
    samplesUntilRelease := msSamples durationMs cfg.sampleRate
    attackRate := maxLevel / attackSamples
    sustainLevelFixed := sf
    decayRate := if sf < maxLevel then (maxLevel - sf) / decaySamples else 0
    releaseRate := sf / releaseSamples }

/-- The order in which `Synth::playNote` writes the fields of the selected
voice (synth.cpp lines 306-345), one constructor per `Voice` field. -/
inductive VoiceField
  | active
  | enableEcho
  | frequency
  | baseVolume
  | waveform
  | phaseAccumulator
  | phaseIncrement
  | envState
  | envLevel
  | samplesUntilRelease
  | attackRate
  | sustainLevelFixed
  | decayRate
  | releaseRate
  deriving DecidableEq, Fintype, Repr

/-- The exact sequence of `Voice` field writes performed by one
`Synth::playNote` call, transcribed statement by statement from
synth.cpp lines 306 (`v.active = true`) through 345 (`v.releaseRate`). -/
def playNoteWriteOrder : List VoiceField :=
  [.active, .enableEcho, .frequency, .baseVolume, .waveform,
   .phaseAccumulator, .phaseIncrement, .envState, .envLevel,
   .samplesUntilRelease, .attackRate, .sustainLevelFixed,
   .decayRate, .releaseRate]

/-- First index satisfying `p`, as computed by the `for` loops of
`Synth::playNote` (synth.cpp lines 278-299). -/
def findIdxFrom (p : Voice → Bool) : List Voice → Option Nat
  | [] => none
  | v :: vs => if p v then some 0 else (findIdxFrom p vs).map (· + 1)

/-- The voice-index selection of `Synth::playNote` (synth.cpp lines
277-303): first inactive voice; else first voice in RELEASE; else 0. -/
def selectVoiceIndex (voices : List Voice) : Nat :=
  match findIdxFrom (fun v => !v.active) voices with
  | some i => i
  | none =>
      match findIdxFrom (fun v => v.envState == EnvState.release) voices with
      | some i => i
      | none => 0

/-- Decidable statement that `i` is the first index of `l` whose element
satisfies `p`. -/
def isFirstIdx (p : Voice → Bool) (l : List Voice) (i : Nat) : Prop :=
  (l.get? i).any p = true ∧ (l.take i).all (fun w => !p w) = true

instance (p : Voice → Bool) (l : List Voice) (i : Nat) :
    Decidable (isFirstIdx p l i) := by
  unfold isFirstIdx; infer_instance

/-- Effect of `Synth::playNote` on the whole voice bank: overwrite the
selected slot with the freshly populated voice. -/
def playNoteBank (cfg : SynthConfig) (voices : List Voice)
    (freq durationMs volume : Nat) : List Voice :=
  voices.set (selectVoiceIndex voices) (playNoteVoice cfg freq durationMs volume)

/-- A voice as initialized by the `Synth` constructor (synth.cpp lines
71-76): `active=false`, `enableEcho=false`, `envState=IDLE`.  The
remaining members are left uninitialized by the constructor; they are
modelled as zero / sine, and no claim depends on them. -/
def initVoice : Voice :=
  { active := false, enableEcho := false, frequency := 0,
    phaseAccumulator := 0, phaseIncrement := 0, envState := .idle,
    envLevel := 0, attackRate := 0, decayRate := 0, releaseRate := 0,
    sustainLevelFixed := 0, samplesUntilRelease := 0, baseVolume := 0,
    waveform := .sine }

/-- Iterate `playNoteBank`, collecting the voice index selected by each
successive call (no samples elapse in between). -/
def playSeq (cfg : SynthConfig) (freq durationMs volume : Nat) :
    Nat → List Voice → List Voice × List Nat
  | 0, voices => (voices, [])
  | n + 1, voices =>
      let i := selectVoiceIndex voices
      let voices1 := playNoteBank cfg voices freq durationMs volume
      let (voices2, rest) := playSeq cfg freq durationMs volume n voices1
      (voices2, i :: rest)

/-- `delaySamples` as computed by the Echo layer of `Synth::updateSample`
(synth.cpp lines 495-499): `u32` product (exact below 2^32), divide by
1000, clamp above to the buffer length, then floor to 1. -/
def delaySamplesOf (delayMs sr len : Nat) : Nat :=
  let d := ((delayMs * sr) % U32) / 1000
  let d1 := if len < d then len else d
  if d1 = 0 then 1 else d1

/-- `readIndex` of the Echo layer (synth.cpp lines 501-503), computed in
`int32_t` and wrapped up by one buffer length when negative. -/
def readIndexOf (w d len : Nat) : Nat :=
  if w < d then w + len - d else w - d

/-- Clipping to the signed 8-bit range (synth.cpp lines 513-516). -/
def clipI8 (x : Int) : Int :=
  if 127 < x then 127 else if x < -128 then -128 else x

/-- The Echo processing layer of `Synth::updateSample` (synth.cpp lines
491-527).  Takes the echo parameters, the sample rate, the delay buffer
and write cursor, and the echo send sum; returns the new buffer, the new
write cursor, and the wet contribution added to the mix.  When the effect
is disabled the whole block is skipped. -/
def echoStep (e : EchoParams) (sr : Nat) (buf : List Nat) (w : Nat)
    (echoSend : Int) : List Nat × Nat × Int :=
  if e.globalEnabled then
    let d := delaySamplesOf e.delayMs sr buf.length
    let ri := readIndexOf w d buf.length
    let delayed : Int := (buf.getD ri 0 : Int) - 128
    let feedbackSignal := clipI8 (echoSend + Int.fdiv (delayed * (e.feedback : Int)) 256)
    let buf1 := buf.set w (feedbackSignal + 128).toNat
    let w1 := if buf.length ≤ w + 1 then 0 else w + 1
    (buf1, w1, Int.fdiv (delayed * (e.mix : Int)) 256)
  else
    (buf, w, 0)

/-- The voice loop of `Synth::updateSample` (synth.cpp lines 395-488):
step every voice, accumulate `mixedSample` and `echoSendSample`.  Each
voice may consume one pseudo-random byte (noise waveform). -/
def mixVoices : List Voice → List Nat → List Voice × Int × Int
  | [], _ => ([], 0, 0)
  | v :: vs, rnds =>
      let (v1, p) := voiceStepOut v (rnds.headD 0)
      let (vs1, m, e) := mixVoices vs rnds.tail
      (v1 :: vs1, p + m, (if v.enableEcho then p else 0) + e)

/-- The dry (echo-free) mix: the plain sum of the processed contributions
of the voices, nothing else. -/
def dryMix : List Voice → List Nat → Int
  | [], _ => 0
  | v :: vs, rnds => (voiceStepOut v (rnds.headD 0)).2 + dryMix vs rnds.tail

/-- The Synth state touched by one `updateSample` invocation. -/
structure SynthState where
  sampleRate : Nat
  voices : List Voice
  echo : EchoParams
  delayBuffer : List Nat
  delayWriteIndex : Nat
  deriving Repr

/-- One invocation of `Synth::updateSample` (synth.cpp lines 383-527)
up to and including the echo layer: returns the new state and the final
`mixedSample` handed to the output stage.  (The music-player hook is
modelled separately; the output stage is `outputPWM`.) -/
def updateSampleState (s : SynthState) (rnds : List Nat) : SynthState × Int :=
  let (vs1, mixed, send) := mixVoices s.voices rnds
  let (buf1, w1, echoOut) :=
    echoStep s.echo s.sampleRate s.delayBuffer s.delayWriteIndex send
  ({ s with voices := vs1, delayBuffer := buf1, delayWriteIndex := w1 },
   mixed + echoOut)

/-- The active-branch output stage of `Synth::updateSample` (synth.cpp
lines 543-551): halve the mix (C `int` division truncates toward zero),
clip to signed 8-bit, recenter at 128.  This is the `pwmVal` fed to the
smoothing filter (which is seeded to exactly this value on the first
sample after reactivation). -/
def outputPWM (mixed : Int) : Nat :=
  (clipI8 (Int.tdiv mixed 2) + 128).toNat

/-- A sequencer note (music.h lines 14-20). -/
structure MusicNote where
  note : Nat
  duration : Nat
  advance : Nat
  preset : SoundPreset
  deriving DecidableEq, Repr

/-- A note-start request issued to the synth by `MusicPlayer::update`:
the arguments of the `setSoundPreset` / `playNote` pair at music.cpp
lines 102-105. -/
structure NoteEvent where
  freq : Nat
  durationMs : Nat
  preset : SoundPreset
  deriving DecidableEq, Repr

/-- MusicPlayer state (music.h lines 24-36).  `sampleRate` caches the
value the player obtains from the attached synth. -/
structure PlayerState where
  melody : List MusicNote
  currentNoteIndex : Nat
  playing : Bool
  bpm : Nat
  sampleRate : Nat
  samplesPerTick : Nat
  msPerTick : Nat
  tickCounter : Nat
  ticksUntilNextStep : Nat
  deriving DecidableEq, Repr

/-- `MusicPlayer::setBPM` (music.cpp lines 52-67).  Both divisions divide
by `bpm` with no guard; a zero `bpm` is a division by zero, modelled as
`none`.  Otherwise returns `(samplesPerTick, msPerTick)`. -/
def setBPMCalc (sr bpm : Nat) : Option (Nat × Nat) :=
  if bpm = 0 then none
  else some ((sr * 15) / bpm, (15000 + bpm / 2) / bpm)

/-- `MusicPlayer::play` (music.cpp lines 15-31): reset the position, run
`setBPM`, force an immediate first tick (`tickCounter = samplesPerTick`,
`ticksUntilNextStep = 0`), and start when the melody is non-empty.
Propagates `setBPM`'s division by zero as `none`. -/
def playerPlay (sr : Nat) (melody : List MusicNote) (bpm : Nat) :
    Option PlayerState :=
  match setBPMCalc sr bpm with
  | none => none
  | some (spt, mpt) =>
      some { melody := melody, currentNoteIndex := 0,
             playing := 0 < melody.length, bpm := bpm, sampleRate := sr,
             samplesPerTick := spt, msPerTick := mpt,
             tickCounter := spt, ticksUntilNextStep := 0 }

/-- The note-processing loop of `MusicPlayer::update` (music.cpp lines
89-117): while `ticksUntilNextStep == 0 && playing`, stop if the index is
past the end, otherwise start the note (when its pitch is positive) with
`durationMs = duration * msPerTick` and its preset, set
`ticksUntilNextStep = note.advance`, advance the index.  The loop runs at
most once per remaining note, so `melody.length + 1` fuel is always
enough. -/
def processNotes : Nat → PlayerState → PlayerState × List NoteEvent
  | 0, s => (s, [])
  | fuel + 1, s =>
      if s.ticksUntilNextStep == 0 && s.playing then
        if s.melody.length ≤ s.currentNoteIndex then
          ({ s with playing := false }, [])
        else
          match s.melody.get? s.currentNoteIndex with
          | none => ({ s with playing := false }, [])
          | some note =>
              let evs :=
                if 0 < note.note then
                  [{ freq := note.note, durationMs := note.duration * s.msPerTick,
                     preset := note.preset : NoteEvent }]
                else []
              let s1 := { s with ticksUntilNextStep := note.advance,
                                 currentNoteIndex := s.currentNoteIndex + 1 }
              let (s2, rest) := processNotes fuel s1
              (s2, evs ++ rest)
      else (s, [])

/-- The elapsed-tick body of `MusicPlayer::update` (music.cpp lines
78-117): reset the sample counter, decrement a pending wait, then run the
note-processing loop. -/
def playerTick (s : PlayerState) : PlayerState × List NoteEvent :=
  let s1 := { s with tickCounter := 0 }
  let s2 :=
    if 0 < s1.ticksUntilNextStep then
      { s1 with ticksUntilNextStep := s1.ticksUntilNextStep - 1 }
    else s1
  processNotes (s2.melody.length + 1) s2

/-- `MusicPlayer::update` (music.cpp lines 70-119), one audio sample:
return unchanged unless playing; count the sample; on reaching
`samplesPerTick`, run the elapsed-tick body. -/
def playerUpdate (s : PlayerState) : PlayerState × List NoteEvent :=
  if s.playing = false then (s, [])
  else
    let s1 := { s with tickCounter := s.tickCounter + 1 }
    if s1.samplesPerTick ≤ s1.tickCounter then playerTick s1 else (s1, [])

/-- Run `playerUpdate` for `n` consecutive samples, collecting the
note-start events of each sample. -/
def runPlayer : Nat → PlayerState → PlayerState × List (List NoteEvent)
  | 0, s => (s, [])
  | n + 1, s =>
      let (s1, evs) := playerUpdate s
      let (s2, rest) := runPlayer n s1
      (s2, evs :: rest)

/-- The pure phase-accumulator recurrence of the DDS step
(`v.phaseAccumulator += v.phaseIncrement`, synth.cpp line 404), iterated
from the zero phase `playNote` installs. -/
def accIter (inc : Nat) : Nat → Nat
  | 0 => 0
  | n + 1 => (accIter inc n + inc) % U32

/-- Spec formula (§4.2): `attackSamples = max(1, attackMs*sampleRate/1000)`,
in exact integer arithmetic. -/
def specAttackSamples (attackMs sr : Nat) : Nat := max 1 (attackMs * sr / 1000)

/-- Spec formula (§4.2): `attackRate = (255<<16)/attackSamples`. -/
def specAttackRate (attackMs sr : Nat) : Nat :=
  MAX_LEVEL / specAttackSamples attackMs sr

/-- Spec formula (§4.2): `decayRate = ((255<<16) - sustainLevelFixed) /
max(1, decaySamples)` (0 when sustain is 255). -/
def specDecayRate (decayMs sustainLevel sr : Nat) : Nat :=
  (MAX_LEVEL - (sustainLevel <<< 16)) / max 1 (decayMs * sr / 1000)

/-- Spec formula (§4.2): `releaseRate = sustainLevelFixed /
max(1, releaseSamples)`. -/
def specReleaseRate (releaseMs sustainLevel sr : Nat) : Nat :=
  (sustainLevel <<< 16) / max 1 (releaseMs * sr / 1000)

/-- Spec formula (§4.2): `samplesUntilRelease = durationMs*sampleRate/1000`. -/
def specSamplesUntilRelease (durationMs sr : Nat) : Nat :=
  durationMs * sr / 1000

/-- The envelope-state invariant maintained by the engine: `envLevel` and
the precomputed rates stay within the 16.16 range `[0, 255<<16]`, decay
never undershoots the sustain level, and an active voice is never parked
in IDLE (only `stopNote` produces IDLE, and it clears `active` in the
same breath). -/
def VoiceInv (v : Voice) : Prop :=
  v.envLevel ≤ MAX_LEVEL ∧ v.sustainLevelFixed ≤ MAX_LEVEL ∧
  v.attackRate ≤ MAX_LEVEL ∧ v.decayRate ≤ MAX_LEVEL ∧
  v.releaseRate ≤ MAX_LEVEL ∧
  (v.envState = .decay → v.sustainLevelFixed ≤ v.envLevel) ∧
  (v.active = true → v.envState ≠ .idle)

instance (v : Voice) : Decidable (VoiceInv v) := by
  unfold VoiceInv; infer_instance

/-- The configuration `Synth::init` leaves in place with the constructor's
default ADSR (synth.cpp lines 59-62) at the 40 kHz rate of `init`. -/
def defaultConfig : SynthConfig :=
  { sampleRate := 40000, waveform := .sine,
    envelope := { attackMs := 10, decayMs := 50, sustainLevel := 200,
                  releaseMs := 100 },
    presetEchoEnabled := false }

/-- A configuration whose `attackMs * sampleRate` product does not fit a
32-bit signed int (60000 * 40000 = 2.4e9 > 2^31). -/
def overflowConfig : SynthConfig :=
  { sampleRate := 40000, waveform := .sine,
    envelope := { attackMs := 60000, decayMs := 50, sustainLevel := 200,
                  releaseMs := 100 },
    presetEchoEnabled := false }

/-- The SOUND_ORGAN preset configuration (synth.cpp line 21: square wave,
attack 0, decay 0, sustain 255, release 50) at 40 kHz. -/
def organConfig : SynthConfig :=
  { sampleRate := 40000, waveform := .square,
    envelope := { attackMs := 0, decayMs := 0, sustainLevel := 255,
                  releaseMs := 50 },
    presetEchoEnabled := false }

/-- The voice started by `playNote(0, 100, 255)` under the organ preset. -/
def organZeroFreqVoice : Voice := playNoteVoice organConfig 0 100 255

/-- Echo parameters with the effect disabled (constructor defaults,
synth.cpp lines 65-68). -/
def echoOffParams : EchoParams :=
  { globalEnabled := false, delayMs := 300, feedback := 100, mix := 100 }

/-- Synth state right after `playNote(0, 100, 255)` under the organ
preset: one square voice at frequency 0, echo disabled, fresh silent
delay buffer. -/
def zeroFreqState : SynthState :=
  { sampleRate := 40000,
    voices := [organZeroFreqVoice, initVoice, initVoice, initVoice],
    echo := echoOffParams,
    delayBuffer := List.replicate MAX_DELAY_BUFFER_SIZE 128,
    delayWriteIndex := 0 }

/-- The chord-scenario song of spec §8:
`[{440,4,0,P},{550,4,4,P},{660,2,2,P}]` with P = SOUND_PLUCK. -/
def chordSong : List MusicNote :=
  [{ note := 440, duration := 4, advance := 0, preset := .soundPluck },
   { note := 550, duration := 4, advance := 4, preset := .soundPluck },
   { note := 660, duration := 2, advance := 2, preset := .soundPluck }]

/-- An all-zero player state, used only as the `Option.getD` default. -/
def dummyPlayer : PlayerState :=
  { melody := [], currentNoteIndex := 0, playing := false, bpm := 0,
    sampleRate := 0, samplesPerTick := 0, msPerTick := 0, tickCounter := 0,
    ticksUntilNextStep := 0 }

/-- The player state after `play(chordSong, 3, 240)` with a synth sample
rate of 16 Hz, chosen so that `samplesPerTick = 16*15/240 = 1` and every
sample is a sequencer tick. -/
def chordInit : PlayerState := (playerPlay 16 chordSong 240).getD dummyPlayer

/-! ### Helper lemmas -/

theorem voiceStep_inactive (v : Voice) (r : Nat) (h : v.active = false) :
    voiceStep v r = v := by
  unfold voiceStep voiceStepOut
  rw [if_pos h]

theorem voiceStepOut_inactive (v : Voice) (r : Nat) (h : v.active = false) :
    voiceStepOut v r = (v, 0) := by
  unfold voiceStepOut
  rw [if_pos h]

theorem voiceStep_active (v : Voice) (r : Nat) (h : v.active = true) :
    voiceStep v r =
      envStep { v with phaseAccumulator :=
        (v.phaseAccumulator + v.phaseIncrement) % U32 } := by
  unfold voiceStep voiceStepOut
  rw [if_neg (by simp [h])]

theorem envStep_phase (v : Voice) :
    (envStep v).phaseAccumulator = v.phaseAccumulator := by
  unfold envStep
  cases v.envState <;> dsimp only <;> (try split) <;> (try split) <;> simp

theorem accIter_closed (inc n : Nat) : accIter inc n = (n * inc) % U32 := by
  induction n with
  | zero => simp [accIter]
  | succ n ih =>
      rw [accIter, ih, Nat.succ_mul]
      simp only [U32]
      omega

theorem findIdxFrom_of_first (p : Voice → Bool) :
    ∀ (l : List Voice) (i : Nat), isFirstIdx p l i → findIdxFrom p l = some i := by
  intro l
  induction l with
  | nil => intro i h; simp [isFirstIdx] at h
  | cons v vs ih =>
      intro i h
      obtain ⟨h1, h2⟩ := h
      cases i with
      | zero =>
          simp only [List.get?] at h1
          simp only [Option.any_some] at h1
          simp [findIdxFrom, h1]
      | succ i =>
          simp only [List.take_succ_cons, List.all_cons, Bool.and_eq_true] at h2
          have hpv : p v = false := by
            rcases h2 with ⟨hv, _⟩
            cases hp : p v
            · rfl
            · rw [hp] at hv; simp at hv
          rw [findIdxFrom, if_neg (by simp [hpv]), ih i ⟨h1, h2.2⟩]
          rfl

theorem findIdxFrom_of_none (p : Voice → Bool) :
    ∀ l : List Voice, (l.all fun v => !p v) = true → findIdxFrom p l = none := by
  intro l
  induction l with
  | nil => intro _; rfl
  | cons v vs ih =>
      intro h
      simp only [List.all_cons, Bool.and_eq_true] at h
      have hpv : p v = false := by
        rcases h with ⟨hv, _⟩
        cases hp : p v
        · rfl
        · rw [hp] at hv; simp at hv
      rw [findIdxFrom, if_neg (by simp [hpv]), ih h.2]
      rfl

theorem mixVoices_dry :
    ∀ (vs : List Voice) (rnds : List Nat),
      (mixVoices vs rnds).2.1 = dryMix vs rnds := by
  intro vs
  induction vs with
  | nil => intro rnds; rfl
  | cons v vs ih => intro rnds; simp [mixVoices, dryMix, ih]

theorem processNotes_exit (fuel : Nat) (s : PlayerState)
    (h : s.ticksUntilNextStep ≠ 0) : processNotes fuel s = (s, []) := by
  cases fuel with
  | zero => rfl
  | succ fuel =>
      rw [processNotes, if_neg]
      simp [h]

theorem msSamples_of_fit (ms sr : Nat) (h : ms * sr < I32_HALF) :
    msSamples ms sr = ms * sr / 1000 := by
  have hu : ms * sr < U32 := by
    have : I32_HALF < U32 := by decide
    omega
  unfold msSamples toI32
  rw [Nat.mod_eq_of_lt hu]
  simp only [if_pos h]
  have htd : Int.tdiv ((ms * sr : Nat) : Int) (1000 : Int)
      = ((ms * sr / 1000 : Nat) : Int) := by
    rfl
  rw [htd]
  unfold i32ToU32
  have hlt : ms * sr / 1000 < U32 := lt_of_le_of_lt (Nat.div_le_self _ _) hu
  rw [Int.emod_eq_of_lt (by positivity) (by exact_mod_cast hlt)]
  norm_cast

theorem voiceStep_active_phase (v : Voice) (r : Nat) (h : v.active = true) :
    voiceStep v r = envStep { v with phaseAccumulator :=
      (v.phaseAccumulator + v.phaseIncrement) % U32 } :=
  voiceStep_active v r h

theorem envStep_attack (v : Voice) (hs : v.envState = .attack) :
    envStep v =
      if MAX_LEVEL ≤ (v.envLevel + v.attackRate) % U32 then
        { v with envLevel := MAX_LEVEL, envState := .decay }
      else
        { v with envLevel := (v.envLevel + v.attackRate) % U32 } := by
  unfold envStep
  rw [hs]

theorem envStep_decay (v : Voice) (hs : v.envState = .decay) :
    envStep v =
      (let v1 :=
        if (v.sustainLevelFixed + v.decayRate) % U32 < v.envLevel then
          { v with envLevel := (v.envLevel + U32 - v.decayRate) % U32 }
        else
          { v with envLevel := v.sustainLevelFixed }
      if v1.envLevel ≤ v1.sustainLevelFixed then
        { v1 with envLevel := v1.sustainLevelFixed, envState := .sustain }
      else
        v1) := by
  unfold envStep
  rw [hs]

theorem envStep_sustain (v : Voice) (hs : v.envState = .sustain) :
    envStep v =
      if 0 < v.samplesUntilRelease then
        { v with samplesUntilRelease := v.samplesUntilRelease - 1 }
      else
        { v with envState := .release } := by
  unfold envStep
  rw [hs]

theorem envStep_release (v : Voice) (hs : v.envState = .release) :
    envStep v =
      if v.releaseRate < v.envLevel then
        { v with envLevel := (v.envLevel + U32 - v.releaseRate) % U32 }
      else
        { v with envLevel := 0, active := false, envState := .idle } := by
  unfold envStep
  rw [hs]

theorem envStep_idle (v : Voice) (hs : v.envState = .idle) :
    envStep v = { v with active := false } := by
  unfold envStep
  rw [hs]

theorem envStep_phase_commute (v : Voice) (a : Nat) :
    envStep { v with phaseAccumulator := a }
      = { envStep v with phaseAccumulator := a } := by
  unfold envStep
  dsimp only
  cases hs : v.envState <;> dsimp only <;>
    (try split) <;> (try split) <;> rfl

theorem voiceStep_decomp (v : Voice) (r : Nat) (h : v.active = true) :
    voiceStep v r = { envStep v with phaseAccumulator :=
      (v.phaseAccumulator + v.phaseIncrement) % U32 } := by
  rw [voiceStep_active v r h, envStep_phase_commute]

theorem release_terminates :
    ∀ (k : Nat) (v : Voice), v.envLevel ≤ k → v.active = true →
      v.envState = .release → 1 ≤ v.releaseRate → v.envLevel < U32 →
      ∃ n, (voiceStepN n v).active = false := by
  intro k
  induction k with
  | zero =>
      intro v hk ha hs hr _
      refine ⟨1, ?_⟩
      show (voiceStep v 0).active = false
      rw [voiceStep_decomp v 0 ha]
      dsimp only
      rw [envStep_release v hs]
      rw [if_neg (by omega)]
  | succ k ih =>
      intro v hk ha hs hr hb
      by_cases hlt : v.releaseRate < v.envLevel
      · have hstep : (voiceStep v 0).active = true ∧
            (voiceStep v 0).envState = .release ∧
            (voiceStep v 0).releaseRate = v.releaseRate ∧
            (voiceStep v 0).envLevel = v.envLevel - v.releaseRate := by
          rw [voiceStep_decomp v 0 ha]
          dsimp only
          rw [envStep_release v hs, if_pos hlt]
          refine ⟨ha, hs, rfl, ?_⟩
          dsimp only
          simp only [U32] at hb ⊢
          omega
        obtain ⟨hs1, hs2, hs3, hs4⟩ := hstep
        obtain ⟨n, hn⟩ := ih (voiceStep v 0)
          (by rw [hs4]; omega) hs1 hs2 (by rw [hs3]; exact hr)
          (by rw [hs4]; omega)
        exact ⟨n + 1, hn⟩
      · refine ⟨1, ?_⟩
        show (voiceStep v 0).active = false
        rw [voiceStep_decomp v 0 ha]
        dsimp only
        rw [envStep_release v hs, if_neg hlt]

theorem sustain_terminates :
    ∀ (k : Nat) (v : Voice), v.samplesUntilRelease ≤ k → v.active = true →
      v.envState = .sustain → 1 ≤ v.releaseRate → v.envLevel < U32 →
      ∃ n, (voiceStepN n v).active = false := by
  intro k
  induction k with
  | zero =>
      intro v hk ha hs hr hb
      have hstep : (voiceStep v 0).active = true ∧
          (voiceStep v 0).envState = .release ∧
          (voiceStep v 0).releaseRate = v.releaseRate ∧
          (voiceStep v 0).envLevel = v.envLevel := by
        rw [voiceStep_decomp v 0 ha]
        dsimp only
        rw [envStep_sustain v hs, if_neg (by omega)]
        exact ⟨ha, rfl, rfl, rfl⟩
      obtain ⟨hs1, hs2, hs3, hs4⟩ := hstep
      obtain ⟨n, hn⟩ := release_terminates (voiceStep v 0).envLevel
        (voiceStep v 0) le_rfl hs1 hs2 (by rw [hs3]; exact hr)
        (by rw [hs4]; exact hb)
      exact ⟨n + 1, hn⟩
  | succ k ih =>
      intro v hk ha hs hr hb
      by_cases hlt : 0 < v.samplesUntilRelease
      · have hstep : (voiceStep v 0).active = true ∧
            (voiceStep v 0).envState = .sustain ∧
            (voiceStep v 0).releaseRate = v.releaseRate ∧
            (voiceStep v 0).envLevel = v.envLevel ∧
            (voiceStep v 0).samplesUntilRelease = v.samplesUntilRelease - 1 := by
          rw [voiceStep_decomp v 0 ha]
          dsimp only
          rw [envStep_sustain v hs, if_pos hlt]
          exact ⟨ha, hs, rfl, rfl, rfl⟩
        obtain ⟨hs1, hs2, hs3, hs4, hs5⟩ := hstep
        obtain ⟨n, hn⟩ := ih (voiceStep v 0)
          (by rw [hs5]; omega) hs1 hs2 (by rw [hs3]; exact hr)
          (by rw [hs4]; exact hb)
        exact ⟨n + 1, hn⟩
      · have hstep : (voiceStep v 0).active = true ∧
            (voiceStep v 0).envState = .release ∧
            (voiceStep v 0).releaseRate = v.releaseRate ∧
            (voiceStep v 0).envLevel = v.envLevel := by
          rw [voiceStep_decomp v 0 ha]
          dsimp only
          rw [envStep_sustain v hs, if_neg hlt]
          exact ⟨ha, rfl, rfl, rfl⟩
        obtain ⟨hs1, hs2, hs3, hs4⟩ := hstep
        obtain ⟨n, hn⟩ := release_terminates (voiceStep v 0).envLevel
          (voiceStep v 0) le_rfl hs1 hs2 (by rw [hs3]; exact hr)
          (by rw [hs4]; exact hb)
        exact ⟨n + 1, hn⟩

theorem MAX_LEVEL_eq : MAX_LEVEL = 16711680 := by decide

theorem decay_terminates :
    ∀ (k : Nat) (v : Voice), v.envLevel ≤ k → v.active = true →
      v.envState = .decay → 1 ≤ v.releaseRate → v.envLevel < U32 →
      v.sustainLevelFixed ≤ MAX_LEVEL → v.decayRate ≤ MAX_LEVEL →
      (1 ≤ v.decayRate ∨ v.envLevel ≤ v.sustainLevelFixed + v.decayRate) →
      ∃ n, (voiceStepN n v).active = false := by
  intro k
  induction k with
  | zero =>
      intro v hk ha hs hr hb hsf hdr _
      have hc1 : ¬ (v.sustainLevelFixed + v.decayRate) % U32 < v.envLevel := by
        omega
      have hstep : (voiceStep v 0).active = true ∧
          (voiceStep v 0).envState = .sustain ∧
          (voiceStep v 0).releaseRate = v.releaseRate ∧
          (voiceStep v 0).envLevel = v.sustainLevelFixed ∧
          (voiceStep v 0).samplesUntilRelease = v.samplesUntilRelease := by
        rw [voiceStep_decomp v 0 ha]
        dsimp only
        rw [envStep_decay v hs]
        dsimp only
        rw [if_neg hc1]
        dsimp only
        rw [if_pos le_rfl]
        exact ⟨ha, rfl, rfl, rfl, rfl⟩
      obtain ⟨hs1, hs2, hs3, hs4, hs5⟩ := hstep
      obtain ⟨n, hn⟩ := sustain_terminates (voiceStep v 0).samplesUntilRelease
        (voiceStep v 0) le_rfl hs1 hs2 (by rw [hs3]; exact hr)
        (by rw [hs4]; simp only [MAX_LEVEL_eq] at hsf; simp only [U32]; omega)
      exact ⟨n + 1, hn⟩
  | succ k ih =>
      intro v hk ha hs hr hb hsf hdr hprog
      have hmod : (v.sustainLevelFixed + v.decayRate) % U32
          = v.sustainLevelFixed + v.decayRate := by
        apply Nat.mod_eq_of_lt
        simp only [MAX_LEVEL_eq] at hsf hdr
        simp only [U32]
        omega
      by_cases hc1 : (v.sustainLevelFixed + v.decayRate) % U32 < v.envLevel
      · have hdr1 : 1 ≤ v.decayRate := by
          rcases hprog with h | h
          · exact h
          · rw [hmod] at hc1; omega
        have hsub : (v.envLevel + U32 - v.decayRate) % U32
            = v.envLevel - v.decayRate := by
          rw [hmod] at hc1
          simp only [U32] at hb ⊢
          omega
        have hc2 : ¬ (v.envLevel + U32 - v.decayRate) % U32 ≤ v.sustainLevelFixed := by
          rw [hsub, hmod] at *
          omega
        have hstep : (voiceStep v 0).active = true ∧
            (voiceStep v 0).envState = .decay ∧
            (voiceStep v 0).releaseRate = v.releaseRate ∧
            (voiceStep v 0).decayRate = v.decayRate ∧
            (voiceStep v 0).sustainLevelFixed = v.sustainLevelFixed ∧
            (voiceStep v 0).envLevel = v.envLevel - v.decayRate := by
          rw [voiceStep_decomp v 0 ha]
          dsimp only
          rw [envStep_decay v hs]
          dsimp only
          rw [if_pos hc1]
          dsimp only
          rw [if_neg hc2]
          exact ⟨ha, hs, rfl, rfl, rfl, hsub⟩
        obtain ⟨hs1, hs2, hs3, hs4, hs5, hs6⟩ := hstep
        obtain ⟨n, hn⟩ := ih (voiceStep v 0)
          (by rw [hs6]; omega) hs1 hs2 (by rw [hs3]; exact hr)
          (by rw [hs6]; omega)
          (by rw [hs5]; exact hsf) (by rw [hs4]; exact hdr)
          (by rw [hs4]; exact Or.inl hdr1)
        exact ⟨n + 1, hn⟩
      · have hstep : (voiceStep v 0).active = true ∧
            (voiceStep v 0).envState = .sustain ∧
            (voiceStep v 0).releaseRate = v.releaseRate ∧
            (voiceStep v 0).envLevel = v.sustainLevelFixed ∧
            (voiceStep v 0).samplesUntilRelease = v.samplesUntilRelease := by
          rw [voiceStep_decomp v 0 ha]
          dsimp only
          rw [envStep_decay v hs]
          dsimp only
          rw [if_neg hc1]
          dsimp only
          rw [if_pos le_rfl]
          exact ⟨ha, rfl, rfl, rfl, rfl⟩
        obtain ⟨hs1, hs2, hs3, hs4, hs5⟩ := hstep
        obtain ⟨n, hn⟩ := sustain_terminates (voiceStep v 0).samplesUntilRelease
          (voiceStep v 0) le_rfl hs1 hs2 (by rw [hs3]; exact hr)
          (by rw [hs4]; simp only [MAX_LEVEL_eq] at hsf; simp only [U32]; omega)
        exact ⟨n + 1, hn⟩

theorem attack_terminates :
    ∀ (k : Nat) (v : Voice), MAX_LEVEL - v.envLevel ≤ k → v.active = true →
      v.envState = .attack → 1 ≤ v.attackRate → v.attackRate ≤ MAX_LEVEL →
      v.envLevel ≤ MAX_LEVEL → v.sustainLevelFixed ≤ MAX_LEVEL →
      v.decayRate ≤ MAX_LEVEL →
      (1 ≤ v.decayRate ∨ MAX_LEVEL ≤ v.sustainLevelFixed + v.decayRate) →
      1 ≤ v.releaseRate →
      ∃ n, (voiceStepN n v).active = false := by
  intro k
  induction k with
  | zero =>
      intro v hk ha hs har harm hml hsf hdr hprog hr
      have hadd : (v.envLevel + v.attackRate) % U32 = v.envLevel + v.attackRate := by
        apply Nat.mod_eq_of_lt
        simp only [MAX_LEVEL_eq] at hml harm
        simp only [U32]
        omega
      have hc : MAX_LEVEL ≤ (v.envLevel + v.attackRate) % U32 := by
        rw [hadd]; omega
      have hstep : (voiceStep v 0).active = true ∧
          (voiceStep v 0).envState = .decay ∧
          (voiceStep v 0).releaseRate = v.releaseRate ∧
          (voiceStep v 0).decayRate = v.decayRate ∧
          (voiceStep v 0).sustainLevelFixed = v.sustainLevelFixed ∧
          (voiceStep v 0).envLevel = MAX_LEVEL := by
        rw [voiceStep_decomp v 0 ha]
        dsimp only
        rw [envStep_attack v hs]
        rw [if_pos hc]
        exact ⟨ha, rfl, rfl, rfl, rfl, rfl⟩
      obtain ⟨hs1, hs2, hs3, hs4, hs5, hs6⟩ := hstep
      obtain ⟨n, hn⟩ := decay_terminates (voiceStep v 0).envLevel (voiceStep v 0)
        le_rfl hs1 hs2 (by rw [hs3]; exact hr)
        (by rw [hs6]; decide)
        (by rw [hs5]; exact hsf) (by rw [hs4]; exact hdr)
        (by rw [hs4, hs5, hs6]; exact hprog)
      exact ⟨n + 1, hn⟩
  | succ k ih =>
      intro v hk ha hs har harm hml hsf hdr hprog hr
      have hadd : (v.envLevel + v.attackRate) % U32 = v.envLevel + v.attackRate := by
        apply Nat.mod_eq_of_lt
        simp only [MAX_LEVEL_eq] at hml harm
        simp only [U32]
        omega
      by_cases hc : MAX_LEVEL ≤ (v.envLevel + v.attackRate) % U32
      · have hstep : (voiceStep v 0).active = true ∧
            (voiceStep v 0).envState = .decay ∧
            (voiceStep v 0).releaseRate = v.releaseRate ∧
            (voiceStep v 0).decayRate = v.decayRate ∧
            (voiceStep v 0).sustainLevelFixed = v.sustainLevelFixed ∧
            (voiceStep v 0).envLevel = MAX_LEVEL := by
          rw [voiceStep_decomp v 0 ha]
          dsimp only
          rw [envStep_attack v hs]
          rw [if_pos hc]
          exact ⟨ha, rfl, rfl, rfl, rfl, rfl⟩
        obtain ⟨hs1, hs2, hs3, hs4, hs5, hs6⟩ := hstep
        obtain ⟨n, hn⟩ := decay_terminates (voiceStep v 0).envLevel (voiceStep v 0)
          le_rfl hs1 hs2 (by rw [hs3]; exact hr)
          (by rw [hs6]; decide)
          (by rw [hs5]; exact hsf) (by rw [hs4]; exact hdr)
          (by rw [hs4, hs5, hs6]; exact hprog)
        exact ⟨n + 1, hn⟩
      · have hstep : (voiceStep v 0).active = true ∧
            (voiceStep v 0).envState = .attack ∧
            (voiceStep v 0).releaseRate = v.releaseRate ∧
            (voiceStep v 0).decayRate = v.decayRate ∧
            (voiceStep v 0).sustainLevelFixed = v.sustainLevelFixed ∧
            (voiceStep v 0).attackRate = v.attackRate ∧
            (voiceStep v 0).envLevel = v.envLevel + v.attackRate := by
          rw [voiceStep_decomp v 0 ha]
          dsimp only
          rw [envStep_attack v hs]
          rw [if_neg hc]
          exact ⟨ha, hs, rfl, rfl, rfl, rfl, hadd⟩
        obtain ⟨hs1, hs2, hs3, hs4, hs5, hs6, hs7⟩ := hstep
        rw [hadd] at hc
        obtain ⟨n, hn⟩ := ih (voiceStep v 0)
          (by rw [hs7]; omega) hs1 hs2 (by rw [hs6]; exact har)
          (by rw [hs6]; exact harm)
          (by rw [hs7]; omega)
          (by rw [hs5]; exact hsf) (by rw [hs4]; exact hdr)
          (by rw [hs4, hs5]; exact hprog)
          (by rw [hs3]; exact hr)
        exact ⟨n + 1, hn⟩

theorem guardedSamples_pos (ms sr : Nat) : 1 ≤ guardedSamples ms sr := by
  unfold guardedSamples
  dsimp only
  split <;> omega

theorem guardedSamples_of_fit (ms sr : Nat) (h : ms * sr < I32_HALF) :
    guardedSamples ms sr = max 1 (ms * sr / 1000) := by
  unfold guardedSamples
  rw [msSamples_of_fit ms sr h]
  dsimp only
  split <;> omega

theorem playNoteVoice_active (cfg : SynthConfig) (f d vol : Nat) :
    (playNoteVoice cfg f d vol).active = true := by
  unfold playNoteVoice
  dsimp only

theorem playNoteVoice_envState (cfg : SynthConfig) (f d vol : Nat) :
    (playNoteVoice cfg f d vol).envState = .attack := by
  unfold playNoteVoice
  dsimp only

theorem playNoteVoice_envLevel (cfg : SynthConfig) (f d vol : Nat) :
    (playNoteVoice cfg f d vol).envLevel = 0 := by
  unfold playNoteVoice
  dsimp only

theorem playNoteVoice_phaseAccumulator (cfg : SynthConfig) (f d vol : Nat) :
    (playNoteVoice cfg f d vol).phaseAccumulator = 0 := by
  unfold playNoteVoice
  dsimp only

theorem playNoteVoice_phaseIncrement (cfg : SynthConfig) (f d vol : Nat) :
    (playNoteVoice cfg f d vol).phaseIncrement
      = phaseIncrementOf f cfg.sampleRate := by
  unfold playNoteVoice
  dsimp only

theorem playNoteVoice_attackRate (cfg : SynthConfig) (f d vol : Nat) :
    (playNoteVoice cfg f d vol).attackRate
      = MAX_LEVEL / guardedSamples cfg.envelope.attackMs cfg.sampleRate := by
  unfold playNoteVoice
  dsimp only

theorem playNoteVoice_sustainLevelFixed (cfg : SynthConfig) (f d vol : Nat) :
    (playNoteVoice cfg f d vol).sustainLevelFixed
      = cfg.envelope.sustainLevel <<< 16 := by
  unfold playNoteVoice
  dsimp only

theorem playNoteVoice_decayRate (cfg : SynthConfig) (f d vol : Nat) :
    (playNoteVoice cfg f d vol).decayRate
      = (if cfg.envelope.sustainLevel <<< 16 < MAX_LEVEL then
          (MAX_LEVEL - cfg.envelope.sustainLevel <<< 16)
            / guardedSamples cfg.envelope.decayMs cfg.sampleRate
        else 0) := by
  unfold playNoteVoice
  dsimp only

theorem playNoteVoice_releaseRate (cfg : SynthConfig) (f d vol : Nat) :
    (playNoteVoice cfg f d vol).releaseRate
      = (cfg.envelope.sustainLevel <<< 16)
          / guardedSamples cfg.envelope.releaseMs cfg.sampleRate := by
  unfold playNoteVoice
  dsimp only

theorem playNoteVoice_samplesUntilRelease (cfg : SynthConfig) (f d vol : Nat) :
    (playNoteVoice cfg f d vol).samplesUntilRelease
      = msSamples d cfg.sampleRate := by
  unfold playNoteVoice
  dsimp only

/-! ### C1 -/

/-- C1 counterexample: the claim that the `active=true` write of
`Synth::playNote` comes strictly last in the sequence of field writes is
false on the code: `v.active = true` at synth.cpp line 306 is the FIRST
write to the selected voice, and the last write is `v.releaseRate` at
line 345. -/
theorem c1_counterexample :
    playNoteWriteOrder.head? = some VoiceField.active ∧
    ¬ playNoteWriteOrder.getLast? = some VoiceField.active := by
  decide

/-- C1 (amended): every call to `Synth::playNote` writes every field of
the selected voice exactly once, but the `active=true` write (the one that
makes the voice visible to the sample interrupt) comes strictly FIRST,
before any other field is populated, and the final write is
`releaseRate` — the write order provides none of the protection the claim
describes, which is exactly the open issue spec §9 flags. -/
theorem c1_theorem :
    playNoteWriteOrder.head? = some VoiceField.active ∧
    playNoteWriteOrder.Nodup ∧
    (∀ f : VoiceField, f ∈ playNoteWriteOrder) ∧
    playNoteWriteOrder.getLast? = some VoiceField.releaseRate := by
  decide

/-! ### C4 -/

/-- C4 counterexample: with `attackMs = 60000` and `sampleRate = 40000`
the product 2.4e9 overflows the 32-bit signed `int` intermediate in
`(envelope.attackMs * sampleRate) / 1000` (synth.cpp line 326): the code
computes `attackSamples = 4293072329` and hence `attackRate = 0`, while
the spec formula in exact arithmetic gives `attackRate = 6`. -/
theorem c4_counterexample :
    msSamples 60000 40000 = 4293072329 ∧
    (playNoteVoice overflowConfig 440 100 255).attackRate = 0 ∧
    specAttackRate 60000 40000 = 6 ∧
    (playNoteVoice overflowConfig 440 100 255).attackRate ≠
      specAttackRate overflowConfig.envelope.attackMs overflowConfig.sampleRate := by
  decide

/-- C4 (amended): whenever each `ms * sampleRate` product fits the 32-bit
signed `int` intermediate (ms*sampleRate < 2^31), the envelope values
precomputed by `Synth::playNote` equal the spec formulas in exact integer
arithmetic (`attackRate = (255<<16)/max(1, attackMs*sampleRate/1000)`,
decay and release likewise, `samplesUntilRelease =
durationMs*sampleRate/1000`, decayRate 0 when sustain is 255); the
floor-to-1 of the sample counts holds for ALL inputs, so no division by
zero is reachable. -/
theorem c4_theorem (cfg : SynthConfig) (freq durationMs volume : Nat)
    (hsus : cfg.envelope.sustainLevel ≤ 255)
    (h1 : cfg.envelope.attackMs * cfg.sampleRate < I32_HALF)
    (h2 : cfg.envelope.decayMs * cfg.sampleRate < I32_HALF)
    (h3 : cfg.envelope.releaseMs * cfg.sampleRate < I32_HALF)
    (h4 : durationMs * cfg.sampleRate < I32_HALF) :
    (playNoteVoice cfg freq durationMs volume).attackRate
        = specAttackRate cfg.envelope.attackMs cfg.sampleRate ∧
    (playNoteVoice cfg freq durationMs volume).decayRate
        = specDecayRate cfg.envelope.decayMs cfg.envelope.sustainLevel
            cfg.sampleRate ∧
    (playNoteVoice cfg freq durationMs volume).releaseRate
        = specReleaseRate cfg.envelope.releaseMs cfg.envelope.sustainLevel
            cfg.sampleRate ∧
    (playNoteVoice cfg freq durationMs volume).samplesUntilRelease
        = specSamplesUntilRelease durationMs cfg.sampleRate ∧
    (∀ ms sr : Nat, 1 ≤ guardedSamples ms sr) := by
  refine ⟨?_, ?_, ?_, ?_, guardedSamples_pos⟩
  · rw [playNoteVoice_attackRate, guardedSamples_of_fit _ _ h1]
    rfl
  · rw [playNoteVoice_decayRate, guardedSamples_of_fit _ _ h2]
    unfold specDecayRate
    split
    · rfl
    · have hle : cfg.envelope.sustainLevel <<< 16 ≤ MAX_LEVEL := by
        rw [Nat.shiftLeft_eq, MAX_LEVEL_eq]
        omega
      have hz : MAX_LEVEL - cfg.envelope.sustainLevel <<< 16 = 0 := by
        omega
      rw [hz, Nat.zero_div]
  · rw [playNoteVoice_releaseRate, guardedSamples_of_fit _ _ h3]
    rfl
  · rw [playNoteVoice_samplesUntilRelease, msSamples_of_fit _ _ h4]
    rfl

/-- C4 witness: the amended theorem applied to the default configuration
(attack 10 ms, decay 50 ms, sustain 200, release 100 ms at 40 kHz) and
`playNote(440, 100, 255)`. -/
theorem c4_witness :
    (defaultConfig.envelope.sustainLevel ≤ 255 ∧
      defaultConfig.envelope.attackMs * defaultConfig.sampleRate < I32_HALF) ∧
    (playNoteVoice defaultConfig 440 100 255).attackRate
      = specAttackRate defaultConfig.envelope.attackMs defaultConfig.sampleRate ∧
    (playNoteVoice defaultConfig 440 100 255).samplesUntilRelease
      = specSamplesUntilRelease 100 defaultConfig.sampleRate :=
  ⟨⟨by decide, by decide⟩,
   (c4_theorem defaultConfig 440 100 255 (by decide) (by decide) (by decide)
      (by decide) (by decide)).1,
   (c4_theorem defaultConfig 440 100 255 (by decide) (by decide) (by decide)
      (by decide) (by decide)).2.2.2.1⟩

/-! ### C5 -/

/-- C5 counterexample: `phaseIncrement` is computed by TRUNCATING
division, not rounding — at frequency 3 and sampleRate 40000 the exact
quotient is 322122.547..., the code stores 322122 while rounding gives
322123 — and consequently at the claim's own instance (440 Hz, 40 kHz,
40000 samples) the phase accumulator advances by `2^32 - 10240` mod 2^32,
not by `(440 * 2^32) mod 2^32 = 0` as claimed. -/
theorem c5_counterexample :
    accIter (phaseIncrementOf 440 40000) 40000 ≠ (440 * 4294967296) % U32 ∧
    phaseIncrementOf 3 40000 = 322122 ∧
    (3 * 4294967296 + 20000) / 40000 = 322123 := by
  refine ⟨?_, by decide, by decide⟩
  rw [accIter_closed]
  decide

/-- C5 (amended): `playNote` sets `phaseIncrement = floor(frequency *
2^32 / sampleRate)` (computed in a 64-bit intermediate, so the
multiplication does not overflow, and the value fits `u32` whenever
`frequency < sampleRate`); each sample of an active voice advances the
phase accumulator by exactly `phaseIncrement` mod 2^32, so with
sampleRate 40000 and frequency 440 the accumulator has advanced by
exactly `40000 * 47244640 = 440*2^32 - 10240` (mod 2^32) after 40000
samples — within 10240 of the ideal `440 * 2^32 mod 2^32 = 0`. -/
theorem c5_theorem :
    (∀ freq sr : Nat, 0 < sr → freq < sr →
        phaseIncrementOf freq sr = freq * 4294967296 / sr) ∧
    (∀ (cfg : SynthConfig) (freq durationMs volume : Nat),
        (playNoteVoice cfg freq durationMs volume).phaseIncrement
          = phaseIncrementOf freq cfg.sampleRate) ∧
    (∀ (v : Voice) (r : Nat), v.active = true →
        (voiceStep v r).phaseAccumulator
          = (v.phaseAccumulator + v.phaseIncrement) % U32) ∧
    (∀ inc n : Nat, accIter inc n = (n * inc) % U32) ∧
    (accIter (phaseIncrementOf 440 40000) 40000 = U32 - 10240 ∧
      (440 * 4294967296) % U32 = 0) := by
  refine ⟨?_, playNoteVoice_phaseIncrement, ?_, accIter_closed, ?_, by decide⟩
  · intro freq sr hsr hlt
    unfold phaseIncrementOf
    rw [Nat.shiftLeft_eq]
    apply Nat.mod_eq_of_lt
    rw [Nat.div_lt_iff_lt_mul hsr]
    have h32 : (2 : Nat) ^ 32 = 4294967296 := by norm_num
    rw [h32]
    simp only [U32]
    omega
  · intro v r h
    rw [voiceStep_decomp v r h]
  · rw [accIter_closed]
    decide

/-- C5 witness: the amended theorem applied at frequency 440,
sampleRate 40000 and at the zero-frequency organ voice. -/
theorem c5_witness :
    ((0 : Nat) < 40000 ∧ (440 : Nat) < 40000 ∧
      organZeroFreqVoice.active = true) ∧
    phaseIncrementOf 440 40000 = 440 * 4294967296 / 40000 ∧
    (voiceStep organZeroFreqVoice 3).phaseAccumulator
      = (organZeroFreqVoice.phaseAccumulator
          + organZeroFreqVoice.phaseIncrement) % U32 :=
  ⟨⟨by decide, by decide, by decide⟩,
   c5_theorem.1 440 40000 (by decide) (by decide),
   c5_theorem.2.2.1 organZeroFreqVoice 3 (by decide)⟩

/-! ### C2 -/

/-- C2: `Synth::playNote` always selects a voice and never fails: it
picks the first inactive voice; if all are active, the first voice in
RELEASE state; if none, voice 0 unconditionally.  Starting from the
4-voice all-idle bank, five back-to-back `playNote` calls (no samples in
between) select voices 0, 1, 2, 3 and then forcibly reuse voice 0 —
exactly one forced reuse. -/
theorem c2_theorem :
    (∀ (voices : List Voice) (i : Nat),
        isFirstIdx (fun v => !v.active) voices i →
        selectVoiceIndex voices = i) ∧
    (∀ (voices : List Voice) (i : Nat),
        (voices.all fun v => v.active) = true →
        isFirstIdx (fun v => v.envState == EnvState.release) voices i →
        selectVoiceIndex voices = i) ∧
    (∀ voices : List Voice,
        (voices.all fun v => v.active) = true →
        (voices.all fun v => !(v.envState == EnvState.release)) = true →
        selectVoiceIndex voices = 0) ∧
    (playSeq defaultConfig 440 100 255 5
        [initVoice, initVoice, initVoice, initVoice]).2 = [0, 1, 2, 3, 0] := by
  refine ⟨?_, ?_, ?_, by decide⟩
  · intro voices i h
    unfold selectVoiceIndex
    rw [findIdxFrom_of_first _ voices i h]
  · intro voices i hall h
    have hnone : findIdxFrom (fun v => !v.active) voices = none := by
      apply findIdxFrom_of_none
      rw [List.all_eq_true] at hall ⊢
      intro x hx
      simp [hall x hx]
    unfold selectVoiceIndex
    rw [hnone, findIdxFrom_of_first _ voices i h]
  · intro voices hall hrel
    have hnone : findIdxFrom (fun v => !v.active) voices = none := by
      apply findIdxFrom_of_none
      rw [List.all_eq_true] at hall ⊢
      intro x hx
      simp [hall x hx]
    have hnone2 : findIdxFrom (fun v => v.envState == EnvState.release)
        voices = none := findIdxFrom_of_none _ voices hrel
    unfold selectVoiceIndex
    rw [hnone, hnone2]

/-- C2 witness: a fully-occupied bank whose third voice is in RELEASE:
the selection sacrifices exactly that voice (index 2); and the concrete
five-call scenario from the idle bank. -/
theorem c2_witness :
    isFirstIdx (fun v => v.envState == EnvState.release)
      [{ initVoice with active := true, envState := .attack },
       { initVoice with active := true, envState := .sustain },
       { initVoice with active := true, envState := .release },
       { initVoice with active := true, envState := .release }] 2 ∧
    selectVoiceIndex
      [{ initVoice with active := true, envState := .attack },
       { initVoice with active := true, envState := .sustain },
       { initVoice with active := true, envState := .release },
       { initVoice with active := true, envState := .release }] = 2 :=
  ⟨by decide,
   c2_theorem.2.1
     [{ initVoice with active := true, envState := .attack },
      { initVoice with active := true, envState := .sustain },
      { initVoice with active := true, envState := .release },
      { initVoice with active := true, envState := .release }] 2
     (by decide) (by decide)⟩

theorem VoiceInv_phaseUpdate (w : Voice) (a : Nat) :
    VoiceInv { w with phaseAccumulator := a } ↔ VoiceInv w := by
  unfold VoiceInv
  dsimp only
  exact Iff.rfl

theorem c3_attack (v : Voice) (hinv : VoiceInv v) (ha : v.active = true)
    (hs : v.envState = .attack) :
    VoiceInv (envStep v) ∧ (envStep v).envLevel ≤ MAX_LEVEL ∧
    v.envLevel ≤ (envStep v).envLevel ∧ (envStep v).active = true := by
  obtain ⟨h1, h2, h3, h4, h5, h6, h7⟩ := hinv
  have hadd : (v.envLevel + v.attackRate) % U32 = v.envLevel + v.attackRate := by
    apply Nat.mod_eq_of_lt
    simp only [MAX_LEVEL_eq] at h1 h3
    simp only [U32]
    omega
  rw [envStep_attack v hs]
  by_cases hc : MAX_LEVEL ≤ (v.envLevel + v.attackRate) % U32
  · rw [if_pos hc]
    unfold VoiceInv
    dsimp only
    exact ⟨⟨le_rfl, h2, h3, h4, h5, fun _ => h2, fun _ => by decide⟩,
           le_rfl, h1, ha⟩
  · rw [if_neg hc]
    unfold VoiceInv
    dsimp only
    rw [hadd]
    rw [hadd] at hc
    refine ⟨⟨by omega, h2, h3, h4, h5, ?_, ?_⟩, by omega, by omega, ha⟩
    · intro hd
      rw [hs] at hd
      simp at hd
    · intro _
      rw [hs]
      decide

theorem c3_decay (v : Voice) (hinv : VoiceInv v) (ha : v.active = true)
    (hs : v.envState = .decay) :
    VoiceInv (envStep v) ∧ (envStep v).envLevel ≤ v.envLevel ∧
    (envStep v).active = true := by
  obtain ⟨h1, h2, h3, h4, h5, h6, h7⟩ := hinv
  have hsf : v.sustainLevelFixed ≤ v.envLevel := h6 hs
  have hmod : (v.sustainLevelFixed + v.decayRate) % U32
      = v.sustainLevelFixed + v.decayRate := by
    apply Nat.mod_eq_of_lt
    simp only [MAX_LEVEL_eq] at h2 h4
    simp only [U32]
    omega
  rw [envStep_decay v hs]
  dsimp only
  rw [hmod]
  by_cases hc1 : v.sustainLevelFixed + v.decayRate < v.envLevel
  · rw [if_pos hc1]
    dsimp only
    have hsub : (v.envLevel + U32 - v.decayRate) % U32
        = v.envLevel - v.decayRate := by
      simp only [MAX_LEVEL_eq] at h1
      simp only [U32]
      omega
    rw [hsub]
    rw [if_neg (show ¬ v.envLevel - v.decayRate ≤ v.sustainLevelFixed by omega)]
    unfold VoiceInv
    dsimp only
    refine ⟨⟨by omega, h2, h3, h4, h5, fun _ => by omega, ?_⟩, by omega, ha⟩
    intro _
    rw [hs]
    decide
  · rw [if_neg hc1]
    dsimp only
    rw [if_pos le_rfl]
    unfold VoiceInv
    dsimp only
    exact ⟨⟨h2, h2, h3, h4, h5, fun hd => by simp at hd, fun _ => by decide⟩,
           hsf, ha⟩

theorem c3_sustain (v : Voice) (hinv : VoiceInv v) (ha : v.active = true)
    (hs : v.envState = .sustain) :
    VoiceInv (envStep v) ∧ (envStep v).envLevel = v.envLevel ∧
    (envStep v).active = true := by
  obtain ⟨h1, h2, h3, h4, h5, h6, h7⟩ := hinv
  rw [envStep_sustain v hs]
  by_cases hc : 0 < v.samplesUntilRelease
  · rw [if_pos hc]
    unfold VoiceInv
    dsimp only
    refine ⟨⟨h1, h2, h3, h4, h5, ?_, ?_⟩, rfl, ha⟩
    · intro hd
      rw [hs] at hd
      simp at hd
    · intro _
      rw [hs]
      decide
  · rw [if_neg hc]
    unfold VoiceInv
    dsimp only
    exact ⟨⟨h1, h2, h3, h4, h5, fun hd => by simp at hd, fun _ => by decide⟩,
           rfl, ha⟩

theorem c3_release (v : Voice) (hinv : VoiceInv v) (ha : v.active = true)
    (hs : v.envState = .release) :
    VoiceInv (envStep v) ∧ (envStep v).envLevel ≤ v.envLevel ∧
    (v.envLevel ≤ v.releaseRate →
      (envStep v).active = false ∧ (envStep v).envLevel = 0 ∧
      (envStep v).envState = .idle) ∧
    (v.releaseRate < v.envLevel → (envStep v).active = true) := by
  obtain ⟨h1, h2, h3, h4, h5, h6, h7⟩ := hinv
  rw [envStep_release v hs]
  by_cases hc : v.releaseRate < v.envLevel
  · have hsub : (v.envLevel + U32 - v.releaseRate) % U32
        = v.envLevel - v.releaseRate := by
      simp only [MAX_LEVEL_eq] at h1
      simp only [U32]
      omega
    rw [if_pos hc]
    unfold VoiceInv
    dsimp only
    rw [hsub]
    refine ⟨⟨by omega, h2, h3, h4, h5, ?_, ?_⟩, by omega,
            fun hle => by omega, fun _ => ha⟩
    · intro hd
      rw [hs] at hd
      simp at hd
    · intro _
      rw [hs]
      decide
  · rw [if_neg hc]
    unfold VoiceInv
    dsimp only
    exact ⟨⟨by omega, h2, h3, h4, h5, fun hd => by simp at hd,
            fun hcon => by simp at hcon⟩,
           by omega, fun _ => ⟨rfl, rfl, rfl⟩, fun hgt => by omega⟩

/-! ### C3 -/

/-- C3: under the invariant established by `playNote` (all envelope
quantities within the 16.16 range, decay never below sustain, active
voices never parked in IDLE), every `updateSample` voice step keeps
`envLevel` within `[0, 255<<16]`; `envLevel` is non-decreasing in Attack,
non-increasing in Decay and Release, and constant in Sustain; an active
voice is deactivated by the step exactly when Release exhausts the level
(`envLevel ≤ releaseRate`), and that same step sets `envLevel = 0` and
`envState = Idle`; inactive voices are left untouched (so the transition
happens exactly once); and `playNote` itself establishes the invariant. -/
theorem c3_theorem :
    (∀ (v : Voice) (r : Nat), VoiceInv v →
      (VoiceInv (voiceStep v r) ∧ (voiceStep v r).envLevel ≤ MAX_LEVEL) ∧
      (v.envState = .attack → v.envLevel ≤ (voiceStep v r).envLevel) ∧
      (v.envState = .decay → (voiceStep v r).envLevel ≤ v.envLevel) ∧
      (v.envState = .release → (voiceStep v r).envLevel ≤ v.envLevel) ∧
      (v.envState = .sustain → (voiceStep v r).envLevel = v.envLevel) ∧
      (v.active = true →
        ((voiceStep v r).active = false ↔
          v.envState = .release ∧ v.envLevel ≤ v.releaseRate)) ∧
      (v.active = true → v.envState = .release → v.envLevel ≤ v.releaseRate →
        (voiceStep v r).envLevel = 0 ∧ (voiceStep v r).envState = .idle) ∧
      (v.active = false → voiceStep v r = v)) ∧
    (∀ (cfg : SynthConfig) (freq durationMs volume : Nat),
      cfg.envelope.sustainLevel ≤ 255 →
      VoiceInv (playNoteVoice cfg freq durationMs volume)) := by
  constructor
  · intro v r hinv
    by_cases ha : v.active = true
    · rw [voiceStep_decomp v r ha, VoiceInv_phaseUpdate]
      dsimp only
      cases hs : v.envState with
      | idle => exact absurd hs (hinv.2.2.2.2.2.2 ha)
      | attack =>
        obtain ⟨hI, hML, hMono, hAct⟩ := c3_attack v hinv ha hs
        refine ⟨⟨hI, hML⟩, fun _ => hMono, ?_, ?_, ?_, ?_, ?_, ?_⟩
        · intro hd; simp at hd
        · intro hd; simp at hd
        · intro hd; simp at hd
        · intro _
          constructor
          · intro hf; rw [hAct] at hf; simp at hf
          · rintro ⟨hcon, -⟩; simp at hcon
        · intro _ hcon; simp at hcon
        · intro hf; rw [ha] at hf; simp at hf
      | decay =>
        obtain ⟨hI, hMono, hAct⟩ := c3_decay v hinv ha hs
        refine ⟨⟨hI, hI.1⟩, ?_, fun _ => hMono, ?_, ?_, ?_, ?_, ?_⟩
        · intro hd; simp at hd
        · intro hd; simp at hd
        · intro hd; simp at hd
        · intro _
          constructor
          · intro hf; rw [hAct] at hf; simp at hf
          · rintro ⟨hcon, -⟩; simp at hcon
        · intro _ hcon; simp at hcon
        · intro hf; rw [ha] at hf; simp at hf
      | sustain =>
        obtain ⟨hI, hEq, hAct⟩ := c3_sustain v hinv ha hs
        refine ⟨⟨hI, hI.1⟩, ?_, ?_, ?_, fun _ => hEq, ?_, ?_, ?_⟩
        · intro hd; simp at hd
        · intro hd; simp at hd
        · intro hd; simp at hd
        · intro _
          constructor
          · intro hf; rw [hAct] at hf; simp at hf
          · rintro ⟨hcon, -⟩; simp at hcon
        · intro _ hcon; simp at hcon
        · intro hf; rw [ha] at hf; simp at hf
      | release =>
        obtain ⟨hI, hMono, hFin, hAct⟩ := c3_release v hinv ha hs
        refine ⟨⟨hI, hI.1⟩, ?_, ?_, fun _ => hMono, ?_, ?_, ?_, ?_⟩
        · intro hd; simp at hd
        · intro hd; simp at hd
        · intro hd; simp at hd
        · intro _
          constructor
          · intro hf
            refine ⟨rfl, ?_⟩
            by_contra hgt
            rw [hAct (by omega)] at hf
            simp at hf
          · rintro ⟨-, hle⟩
            exact (hFin hle).1
        · intro _ _ hle
          exact ⟨(hFin hle).2.1, (hFin hle).2.2⟩
        · intro hf; rw [ha] at hf; simp at hf
    · have hfa : v.active = false := by
        revert ha
        cases v.active <;> simp
      rw [voiceStep_inactive v r hfa]
      refine ⟨⟨hinv, hinv.1⟩, fun _ => le_rfl, fun _ => le_rfl, fun _ => le_rfl,
              fun _ => rfl, ?_, ?_, fun _ => rfl⟩
      · intro hat; rw [hfa] at hat; simp at hat
      · intro hat; rw [hfa] at hat; simp at hat
  · intro cfg freq durationMs volume hsus
    unfold VoiceInv
    rw [playNoteVoice_envLevel, playNoteVoice_sustainLevelFixed,
        playNoteVoice_attackRate, playNoteVoice_decayRate,
        playNoteVoice_releaseRate, playNoteVoice_envState,
        playNoteVoice_active]
    have hsfle : cfg.envelope.sustainLevel <<< 16 ≤ MAX_LEVEL := by
      rw [Nat.shiftLeft_eq, MAX_LEVEL_eq]
      omega
    refine ⟨Nat.zero_le _, hsfle, Nat.div_le_self _ _, ?_, ?_, ?_, ?_⟩
    · split
      · exact le_trans (Nat.div_le_self _ _) (Nat.sub_le _ _)
      · exact Nat.zero_le _
    · exact le_trans (Nat.div_le_self _ _) hsfle
    · intro hd; simp at hd
    · intro _; decide

/-- C3 witness: the step theorem applied to the voice started by
`playNote(440, 100, 255)` under the default configuration, and the
invariant-establishment part applied to that same call. -/
theorem c3_witness :
    VoiceInv (playNoteVoice defaultConfig 440 100 255) ∧
    (voiceStep (playNoteVoice defaultConfig 440 100 255) 0).envLevel
      ≤ MAX_LEVEL :=
  ⟨c3_theorem.2 defaultConfig 440 100 255 (by decide),
   ((c3_theorem.1 (playNoteVoice defaultConfig 440 100 255) 0
      (c3_theorem.2 defaultConfig 440 100 255 (by decide))).1).2⟩

theorem envStep_phaseIncrement (v : Voice) :
    (envStep v).phaseIncrement = v.phaseIncrement := by
  unfold envStep
  cases v.envState <;> dsimp only <;> (try split) <;> (try split) <;> simp

/-! ### C6 -/

/-- C6 counterexample: `playNote(0, 100, 255)` under the SOUND_ORGAN
preset (square wave) does NOT produce centered output: the phase sticks
at 0 and `generateSample(0, square) = 255`, so the very first sample
after the call drives the output stage to pwm value 191, not the center
128.  (Only the sine table maps phase 0 to the center.) -/
theorem c6_counterexample :
    organZeroFreqVoice.frequency = 0 ∧
    organZeroFreqVoice.phaseIncrement = 0 ∧
    generateSample 0 .square 0 = 255 ∧
    outputPWM (updateSampleState zeroFreqState [0, 0, 0, 0]).2 = 191 ∧
    (191 : Nat) ≠ 128 := by
  decide

/-- C6 (amended): `playNote(0, ...)` yields `phaseIncrement = 0` and a
phase accumulator frozen at 0, so each voice sample is the constant
`generateSample(0, waveform)` — for the sine waveform this is the center
128 and the voice's processed contribution is exactly 0 (true silence);
for the other waveforms it is a constant non-centered DC level; in every
case the voice still runs the full envelope lifecycle and is eventually
set inactive (given the strictly positive precomputed rates the presets
produce; the envelope is independent of the waveform bytes). -/
theorem c6_theorem :
    (∀ (cfg : SynthConfig) (durationMs volume : Nat),
        (playNoteVoice cfg 0 durationMs volume).phaseIncrement = 0 ∧
        (playNoteVoice cfg 0 durationMs volume).phaseAccumulator = 0) ∧
    (∀ (v : Voice) (r : Nat), v.phaseIncrement = 0 → v.phaseAccumulator = 0 →
        (voiceStep v r).phaseAccumulator = 0 ∧
        (voiceStep v r).phaseIncrement = 0) ∧
    (∀ (v : Voice) (r : Nat), v.active = true → v.waveform = .sine →
        v.phaseIncrement = 0 → v.phaseAccumulator = 0 →
        (voiceStepOut v r).2 = 0) ∧
    (∀ v : Voice, v.active = true → v.envState = .attack →
        1 ≤ v.attackRate → v.attackRate ≤ MAX_LEVEL →
        v.envLevel ≤ MAX_LEVEL → v.sustainLevelFixed ≤ MAX_LEVEL →
        v.decayRate ≤ MAX_LEVEL →
        (1 ≤ v.decayRate ∨ MAX_LEVEL ≤ v.sustainLevelFixed + v.decayRate) →
        1 ≤ v.releaseRate →
        ∃ n, (voiceStepN n v).active = false) := by
  refine ⟨?_, ?_, ?_, ?_⟩
  · intro cfg durationMs volume
    rw [playNoteVoice_phaseIncrement, playNoteVoice_phaseAccumulator]
    refine ⟨?_, rfl⟩
    unfold phaseIncrementOf
    simp
  · intro v r h1 h2
    by_cases ha : v.active = true
    · rw [voiceStep_decomp v r ha]
      dsimp only
      rw [envStep_phaseIncrement, h1, h2]
      simp
    · have hfa : v.active = false := by
        revert ha
        cases v.active <;> simp
      rw [voiceStep_inactive v r hfa]
      exact ⟨h2, h1⟩
  · intro v r ha hw h1 h2
    unfold voiceStepOut
    rw [if_neg (by rw [ha]; simp)]
    dsimp only
    rw [h1, h2, hw]
    have h128 : generateSample ((((0 : Nat) + 0) % U32) >>> 24) .sine r = 128 := rfl
    rw [h128]
    norm_num
  · intro v ha hs h1 h2 h3 h4 h5 h6 h7
    exact attack_terminates (MAX_LEVEL - v.envLevel) v le_rfl ha hs h1 h2 h3 h4
      h5 h6 h7

/-- C6 witness: the frequency-0 organ voice satisfies every hypothesis
of the amended theorem; its sine-waveform variant contributes exactly 0,
and the voice is eventually deactivated. -/
theorem c6_witness :
    (organZeroFreqVoice.active = true ∧
      organZeroFreqVoice.envState = .attack ∧
      1 ≤ organZeroFreqVoice.attackRate ∧
      1 ≤ organZeroFreqVoice.releaseRate) ∧
    (playNoteVoice organConfig 0 100 255).phaseIncrement = 0 ∧
    (voiceStepOut { organZeroFreqVoice with waveform := .sine } 0).2 = 0 ∧
    (∃ n, (voiceStepN n organZeroFreqVoice).active = false) :=
  ⟨⟨by decide, by decide, by decide, by decide⟩,
   (c6_theorem.1 organConfig 100 255).1,
   c6_theorem.2.2.1 { organZeroFreqVoice with waveform := .sine } 0
     (by decide) (by decide) (by decide) (by decide),
   c6_theorem.2.2.2 organZeroFreqVoice (by decide) (by decide) (by decide)
     (by decide) (by decide) (by decide) (by decide) (by decide) (by decide)⟩

/-! ### C7 -/

/-- C7: for any `u16` `delayMs` and `sampleRate` and any write cursor
inside the buffer, the Echo Unit computes `delaySamples =
clamp(delayMs*sampleRate/1000, 1, 6000)` and a `readIndex` that is
always within `[0, 6000)` (a `Nat`, hence nonnegative, and provably
below the capacity), so the delay-buffer access is in bounds; delays
exceeding the buffer capacity are silently clamped, never an error. -/
theorem c7_theorem (delayMs sr w : Nat) (hd : delayMs < 65536)
    (hs : sr < 65536) (hw : w < MAX_DELAY_BUFFER_SIZE) :
    delaySamplesOf delayMs sr MAX_DELAY_BUFFER_SIZE
        = max 1 (min (delayMs * sr / 1000) MAX_DELAY_BUFFER_SIZE) ∧
    1 ≤ delaySamplesOf delayMs sr MAX_DELAY_BUFFER_SIZE ∧
    delaySamplesOf delayMs sr MAX_DELAY_BUFFER_SIZE
        ≤ MAX_DELAY_BUFFER_SIZE ∧
    readIndexOf w (delaySamplesOf delayMs sr MAX_DELAY_BUFFER_SIZE)
        MAX_DELAY_BUFFER_SIZE < MAX_DELAY_BUFFER_SIZE := by
  have hprod : delayMs * sr < U32 := by
    have h1 : delayMs * sr ≤ 65535 * 65535 :=
      Nat.mul_le_mul (by omega) (by omega)
    have h2 : (65535 * 65535 : Nat) < U32 := by decide
    omega
  unfold delaySamplesOf readIndexOf
  dsimp only
  rw [Nat.mod_eq_of_lt hprod]
  simp only [MAX_DELAY_BUFFER_SIZE] at hw ⊢
  rw [Nat.max_def, Nat.min_def]
  split_ifs <;> first | omega | exact absurd (by assumption) not_false

/-- C7 witness: `delayMs = 300` at 40 kHz asks for 12000 samples of
delay, which is silently clamped to the 6000-sample capacity, and the
read index stays in bounds for write cursor 0. -/
theorem c7_witness :
    ((300 : Nat) < 65536 ∧ (40000 : Nat) < 65536 ∧
      (0 : Nat) < MAX_DELAY_BUFFER_SIZE) ∧
    delaySamplesOf 300 40000 MAX_DELAY_BUFFER_SIZE
      = max 1 (min (300 * 40000 / 1000) MAX_DELAY_BUFFER_SIZE) ∧
    readIndexOf 0 (delaySamplesOf 300 40000 MAX_DELAY_BUFFER_SIZE)
      MAX_DELAY_BUFFER_SIZE < MAX_DELAY_BUFFER_SIZE :=
  ⟨⟨by decide, by decide, by decide⟩,
   (c7_theorem 300 40000 0 (by decide) (by decide) (by decide)).1,
   (c7_theorem 300 40000 0 (by decide) (by decide) (by decide)).2.2.2⟩

/-! ### C8 -/

/-- C8: when the echo effect is disabled, one `updateSample` step leaves
the delay buffer and its write cursor completely unchanged (no voice
sample is written into the buffer) and the mixed output handed to the
output stage equals the plain dry sum of the voice contributions — the
Echo Unit contributes nothing. -/
theorem c8_theorem (s : SynthState) (rnds : List Nat)
    (h : s.echo.globalEnabled = false) :
    (updateSampleState s rnds).1.delayBuffer = s.delayBuffer ∧
    (updateSampleState s rnds).1.delayWriteIndex = s.delayWriteIndex ∧
    (updateSampleState s rnds).2 = dryMix s.voices rnds := by
  unfold updateSampleState echoStep
  rw [h]
  rcases hmv : mixVoices s.voices rnds with ⟨vs1, mixed, send⟩
  dsimp only
  simp only [Bool.false_eq_true, if_false]
  refine ⟨by trivial, by trivial, ?_⟩
  have hd := mixVoices_dry s.voices rnds
  rw [hmv] at hd
  dsimp only at hd
  rw [Int.add_zero, hd]

/-- C8 witness: the disabled-echo theorem applied to the concrete
post-`playNote(0,100,255)` state. -/
theorem c8_witness :
    zeroFreqState.echo.globalEnabled = false ∧
    (updateSampleState zeroFreqState [0, 0, 0, 0]).1.delayWriteIndex
      = zeroFreqState.delayWriteIndex ∧
    (updateSampleState zeroFreqState [0, 0, 0, 0]).2
      = dryMix zeroFreqState.voices [0, 0, 0, 0] :=
  ⟨by decide,
   (c8_theorem zeroFreqState [0, 0, 0, 0] (by decide)).2.1,
   (c8_theorem zeroFreqState [0, 0, 0, 0] (by decide)).2.2⟩

/-! ### C9 -/

/-- C9: on an elapsed tick with `ticksUntilNextStep == 0` and playing,
the sequencer loop of `MusicPlayer::update` stops when the index is past
the end; otherwise it starts the note (when its pitch is positive) with
`durationMs = durationTicks * msPerTick` and the note's preset, sets
`ticksUntilNextStep = advanceTicks`, and advances the index, exiting the
loop only when the advance is nonzero — so notes with `advanceTicks = 0`
chain into the same tick (chords).  In particular, playing the song
`[{440,4,0,P},{550,4,4,P},{660,2,2,P}]` (with `samplesPerTick = 1`)
starts 440 and 550 in the same tick and 660 exactly 4 ticks later. -/
theorem c9_theorem :
    (∀ (fuel : Nat) (s : PlayerState), s.playing = true →
        s.ticksUntilNextStep = 0 →
        s.melody.length ≤ s.currentNoteIndex →
        processNotes (fuel + 1) s = ({ s with playing := false }, [])) ∧
    (∀ (fuel : Nat) (s : PlayerState) (note : MusicNote),
        s.playing = true → s.ticksUntilNextStep = 0 →
        s.melody.get? s.currentNoteIndex = some note → 0 < note.note →
        ∃ rest, (processNotes (fuel + 1) s).2
          = { freq := note.note, durationMs := note.duration * s.msPerTick,
              preset := note.preset : NoteEvent } :: rest) ∧
    (∀ (fuel : Nat) (s : PlayerState) (note : MusicNote),
        s.playing = true → s.ticksUntilNextStep = 0 →
        s.melody.get? s.currentNoteIndex = some note → 0 < note.note →
        0 < note.advance →
        processNotes (fuel + 1) s
          = ({ s with ticksUntilNextStep := note.advance,
                      currentNoteIndex := s.currentNoteIndex + 1 },
             [{ freq := note.note, durationMs := note.duration * s.msPerTick,
                preset := note.preset }])) ∧
    ((runPlayer 5 chordInit).2
      = [[{ freq := 440, durationMs := 252, preset := .soundPluck },
          { freq := 550, durationMs := 252, preset := .soundPluck }],
         [], [], [],
         [{ freq := 660, durationMs := 126, preset := .soundPluck }]]) := by
  refine ⟨?_, ?_, ?_, by decide⟩
  · intro fuel s hp hts hlen
    rw [processNotes, if_pos (by simp [hts, hp]), if_pos hlen]
  · intro fuel s note hp hts hget hpos
    obtain ⟨hlen, -⟩ := List.get?_eq_some.mp hget
    rcases hpn : processNotes fuel
        { s with ticksUntilNextStep := note.advance,
                 currentNoteIndex := s.currentNoteIndex + 1 } with ⟨s2, rest⟩
    refine ⟨rest, ?_⟩
    rw [processNotes, if_pos (by simp [hts, hp]), if_neg (by omega), hget]
    dsimp only
    rw [if_pos hpos, hpn]
    simp
  · intro fuel s note hp hts hget hpos hadv
    obtain ⟨hlen, -⟩ := List.get?_eq_some.mp hget
    have hexit : processNotes fuel
        { s with ticksUntilNextStep := note.advance,
                 currentNoteIndex := s.currentNoteIndex + 1 }
        = ({ s with ticksUntilNextStep := note.advance,
                    currentNoteIndex := s.currentNoteIndex + 1 }, []) := by
      apply processNotes_exit
      dsimp only
      omega
    rw [processNotes, if_pos (by simp [hts, hp]), if_neg (by omega), hget]
    dsimp only
    rw [if_pos hpos, hexit]
    simp

/-- C9 witness: the loop-step theorem applied to the chord song
positioned at its second note (550, advance 4): the tick starts exactly
that note with duration `4 * msPerTick = 252` ms and then leaves the
loop. -/
theorem c9_witness :
    ({ chordInit with currentNoteIndex := 1 }.playing = true ∧
      { chordInit with currentNoteIndex := 1 }.ticksUntilNextStep = 0) ∧
    (processNotes 4 { chordInit with currentNoteIndex := 1 }).2
      = [{ freq := 550, durationMs := 252, preset := .soundPluck }] :=
  ⟨⟨by decide, by decide⟩, by
    rw [c9_theorem.2.2.1 3 { chordInit with currentNoteIndex := 1 }
      { note := 550, duration := 4, advance := 4, preset := .soundPluck }
      (by decide) (by decide) (by decide) (by decide) (by decide)]
    decide⟩

/-! ### C10 -/

/-- C10: `MusicPlayer::setBPM` computes `samplesPerTick =
(sampleRate*15)/bpm` and `msPerTick = (15000 + (bpm>>1))/bpm` with no
guard on `bpm`: both divisions are well-defined for every `bpm ≥ 1`, and
a call with `bpm = 0` (e.g. `play(melody, length, 0)`, which reaches
`setBPM` unconditionally) divides by zero — modelled as `none`.  The
division by zero is unreachable only under the unstated precondition
`bpm > 0`. -/
theorem c10_theorem :
    (∀ sr bpm : Nat, 1 ≤ bpm →
        setBPMCalc sr bpm = some ((sr * 15) / bpm, (15000 + bpm / 2) / bpm)) ∧
    (∀ (sr : Nat) (melody : List MusicNote) (bpm : Nat), 1 ≤ bpm →
        (playerPlay sr melody bpm).isSome = true) ∧
    (∀ sr : Nat, setBPMCalc sr 0 = none) ∧
    (∀ (sr : Nat) (melody : List MusicNote), playerPlay sr melody 0 = none) := by
  refine ⟨?_, ?_, ?_, ?_⟩
  · intro sr bpm h
    unfold setBPMCalc
    rw [if_neg (by omega)]
  · intro sr melody bpm h
    unfold playerPlay setBPMCalc
    rw [if_neg (by omega)]
    rfl
  · intro sr
    rfl
  · intro sr melody
    rfl

/-- C10 witness: `setBPM` at 40 kHz and 120 bpm yields the defined pair,
and `play(chordSong, 3, 0)` hits the division by zero (`none`). -/
theorem c10_witness :
    (1 : Nat) ≤ 120 ∧
    setBPMCalc 40000 120 = some ((40000 * 15) / 120, (15000 + 120 / 2) / 120) ∧
    playerPlay 40000 chordSong 0 = none :=
  ⟨by decide, c10_theorem.1 40000 120 (by decide),
   c10_theorem.2.2.2 40000 chordSong⟩
